import Mathlib

/-!
Verification of the Reportify reporting application against its design
specification.  The definitions below are shallow embeddings of the
JavaScript source: the report filter, the POST /api/reports handler, the
Excel and PDF export renderers, and the POST /api/schedule handler.
Machine floats do not occur in the embedded fragments; currency amounts are
modelled as integer cents, other JS numbers as integers or rationals.
-/

namespace Reportify

/-- One report record as stored in the `reports` table and served by
`GET /api/reports` (src/backend/index.js, schema in the SQL seed).
`amountCents` models the NUMERIC(10,2) `amount` column in cents. -/
structure Report where
  id : Nat
  date : String
  category : String
  amountCents : Int
  user : String
  region : String
  deriving DecidableEq, Repr

/-- The frontend filter state `{ date: "", category: "", user: "", region: "" }`
(src/frontend/src/App.jsx line 7).  An empty string is the unset value, as in
the source, where JS truthiness of the string decides whether a criterion is
applied. -/
structure Filters where
  date : String
  category : String
  user : String
  region : String
  deriving DecidableEq, Repr

/-- The all-unset filter state, the initial React state in the source. -/
def emptyFilters : Filters := { date := "", category := "", user := "", region := "" }

/-- JS `String.prototype.toLowerCase` on the ASCII data this app handles. -/
def jsToLower (s : String) : String := String.mk (s.toList.map Char.toLower)

/-- JS `String.prototype.toUpperCase` on the ASCII data this app handles. -/
def jsToUpper (s : String) : String := String.mk (s.toList.map Char.toUpper)

/-- Contiguous-sublist test on character lists: `hasSub pat l` is true iff
`pat` occurs contiguously inside `l`. -/
def hasSub (pat : List Char) : List Char → Bool
  | [] => List.isPrefixOf pat []
  | c :: t => List.isPrefixOf pat (c :: t) || hasSub pat t

/-- JS `hay.includes(pat)`: substring containment. -/
def jsIncludes (hay pat : String) : Bool := hasSub pat.toList hay.toList

/-- The predicate of `reports.filter(...)` in src/frontend/src/App.jsx
lines 71-77 (identical in src/unnamed/part_005): each populated criterion is
checked, an unset (empty-string, hence JS-falsy) criterion yields `true`. -/
def matchesFilters (f : Filters) (r : Report) : Bool :=
  (if f.date == "" then true else r.date == f.date) &&
  (if f.category == "" then true else r.category == f.category) &&
  (if f.user == "" then true else jsIncludes (jsToLower r.user) (jsToLower f.user)) &&
  (if f.region == "" then true else jsIncludes (jsToLower r.region) (jsToLower f.region))

/-- `filteredReports` from src/frontend/src/App.jsx lines 71-77:
`reports.filter(report => ...)`. -/
def filteredReports (f : Filters) (reports : List Report) : List Report :=
  reports.filter (matchesFilters f)

/-- Spec-side matching relation, written after the spec words (§4.1, §8):
date exact equality, category exact equality, user and region
case-insensitive substring containment; an unset criterion imposes no
constraint.  Used to compare the source filter against the specification. -/
def specKeep (f : Filters) (r : Report) : Prop :=
  (f.date ≠ "" → r.date = f.date) ∧
  (f.category ≠ "" → r.category = f.category) ∧
  (f.user ≠ "" → jsIncludes (jsToLower r.user) (jsToLower f.user) = true) ∧
  (f.region ≠ "" → jsIncludes (jsToLower r.region) (jsToLower f.region) = true)

/-- The record inserted by the SQL seed and used by the spec scenarios
(date 2025-06-01, Sales, 1000.00, Alice, North). -/
def aliceReport : Report :=
  { id := 1, date := "2025-06-01", category := "Sales", amountCents := 100000,
    user := "Alice", region := "North" }

/-- JS truthiness of a possibly absent string request field: `undefined` and
the empty string are falsy. -/
def truthyStr : Option String → Bool
  | none => false
  | some s => !(s == "")

/-- JS truthiness of a possibly absent numeric request field: `undefined` and
`0` are falsy.  The amount is modelled in cents, so dollar amount 0
corresponds to 0 cents. -/
def truthyNum : Option Int → Bool
  | none => false
  | some n => !(n == 0)

/-- Body of a POST /api/reports request; a missing JSON field destructures to
`undefined`, modelled as `none`. -/
structure ReportBody where
  date : Option String
  category : Option String
  amount : Option Int
  user : Option String
  region : Option String
  deriving DecidableEq, Repr

/-- An HTTP response of the reports handler: status code and, on success,
the created record echoed back. -/
structure PostResponse where
  status : Nat
  body : Option Report
  error : Option String
  deriving DecidableEq, Repr

/-- The validating POST /api/reports handler (src/unnamed/part_000 lines
97-134, identically src/unnamed/part_004): it rejects with 400 when
`!date || !category || !amount || !user || !region` (JS falsiness), otherwise
inserts the record — the store assigns the next identifier — and responds
with the created row.  The store is modelled as the list of rows with the
assigned identifier supplied by `nextId`; the store-failure (500) branch is
not exercised by the claims and the model store accepts every insert. -/
def postReportsHandler (b : ReportBody) (store : List Report) (nextId : Nat) :
    PostResponse × List Report :=
  if truthyStr b.date && truthyStr b.category && truthyNum b.amount &&
      truthyStr b.user && truthyStr b.region then
    let r : Report :=
      { id := nextId, date := b.date.getD "", category := b.category.getD "",
        amountCents := b.amount.getD 0, user := b.user.getD "", region := b.region.getD "" }
    ({ status := 200, body := some r, error := none }, store ++ [r])
  else
    ({ status := 400, body := none, error := some "All fields are required" }, store)

/-- A spreadsheet cell value: a string, a raw JS number (modelled as a
rational, since the handler never reformats it), or the empty cell produced
when a row object lacks a column key. -/
inductive Cell where
  | str : String → Cell
  | num : Rat → Cell
  | empty : Cell
  deriving DecidableEq, Repr

/-- A JSON row object as received by POST /api/export/excel: an ordered list
of key-value pairs, mirroring JS object key order. -/
def RowObj : Type := List (String × Cell)

/-- `Object.keys` on a row object. -/
def rowKeys (r : RowObj) : List String := r.map Prod.fst

/-- Key lookup as exceljs performs it when `addRow` is given an object and
the worksheet columns are keyed: a missing key leaves the cell empty. -/
def rowGet (r : RowObj) (k : String) : Cell :=
  match (List.find? (fun p => p.1 == k) r) with
  | some p => p.2
  | none => Cell.empty

/-- The worksheet built by the POST /api/export/excel handler
(src/client/src/App.jsx lines 504-543): the header keys are
`Object.keys(data[0])`, the header row holds those keys uppercased, and each
input row object is added as one data row with its values placed under the
matching header keys.  Amount values are added raw — the handler applies no
number formatting. -/
def excelSheet (data : List RowObj) : List (List Cell) :=
  match data with
  | [] => []
  | r0 :: _ =>
    (rowKeys r0).map (fun h => Cell.str (jsToUpper h)) ::
      data.map (fun r => (rowKeys r0).map (fun k => rowGet r k))

/-- The POST /api/export/excel handler boundary: `!data ||
!Array.isArray(data) || data.length === 0` responds 400 with no artifact
(`none` models an absent or non-array body), otherwise the worksheet is
produced and sent with status 200. -/
def excelHandler (data : Option (List RowObj)) : Nat × Option (List (List Cell)) :=
  match data with
  | none => (400, none)
  | some [] => (400, none)
  | some (r0 :: rest) => (200, some (excelSheet (r0 :: rest)))

/-- One text placement in the jsPDF document: the page it lands on (page 0
is the first), the x/y coordinates, and the text. -/
structure PdfItem where
  page : Nat
  x : Nat
  y : Nat
  text : String
  deriving DecidableEq, Repr

/-- The line the frontend PDF export draws for one record
(src/frontend/src/App.jsx line 95):
id. date | category | $amount | user | region, amount via `toFixed(2)`. -/
def toFixed2 (cents : Int) : String :=
  (if cents < 0 then "-" else "") ++ toString (cents.natAbs / 100) ++ "." ++
    toString (cents.natAbs % 100 / 10) ++ toString (cents.natAbs % 10)

/-- The text of the PDF line for one record. -/
def pdfLine (r : Report) : String :=
  toString r.id ++ ". " ++ r.date ++ " | " ++ r.category ++ " | $" ++
    toFixed2 r.amountCents ++ " | " ++ r.user ++ " | " ++ r.region

/-- The per-record loop of `exportPDF` (src/frontend/src/App.jsx lines
89-99): `yPosition = 20 + index * 10`; when `yPosition > 280` the code calls
`doc.addPage()` — advancing the current page — and draws the line at y 20,
otherwise it draws at `yPosition` on the current page. -/
def pdfPlace (idx page : Nat) : List Report → List PdfItem
  | [] => []
  | r :: rest =>
    if 20 + idx * 10 > 280 then
      { page := page + 1, x := 10, y := 20, text := pdfLine r } ::
        pdfPlace (idx + 1) (page + 1) rest
    else
      { page := page, x := 10, y := 20 + idx * 10, text := pdfLine r } ::
        pdfPlace (idx + 1) page rest

/-- The full jsPDF document of `exportPDF`: the title drawn at (10, 10) on
the first page, then the per-record loop starting at index 0 on page 0. -/
def pdfItems (reports : List Report) : List PdfItem :=
  { page := 0, x := 10, y := 10, text := "Reportify Report" } :: pdfPlace 0 0 reports

/-- `exportPDF` (src/frontend/src/App.jsx lines 79-106): an empty filtered
set alerts and returns without saving any file (`none`); otherwise the
document above is saved. -/
def exportPDF (filtered : List Report) : Option (List PdfItem) :=
  if filtered.length = 0 then none else some (pdfItems filtered)

/-- A character the JS regex class `\s` matches, on the inputs this app
handles. -/
def jsWhitespace (c : Char) : Bool :=
  c == ' ' || c == '\t' || c == '\n' || c == '\r' || c == '\x0b' || c == '\x0c'

/-- The test of the email pattern of src/client/src/App.jsx line 600:
the anchored regex requires the string to decompose as one-or-more
non-space-non-at characters, an at sign, one-or-more non-space-non-at
characters, a dot, and one-or-more non-space-non-at characters.
Equivalently: no whitespace, exactly one at sign, not in first position,
and after it a dot with at least one character on each side. -/
def jsEmailTest (s : String) : Bool :=
  let cs := s.toList
  let locPart := cs.takeWhile (fun c => !(c == '@'))
  let rest := cs.drop (locPart.length + 1)
  cs.all (fun c => !(jsWhitespace c)) &&
    !(locPart.length == cs.length) &&
    !(locPart == []) &&
    rest.all (fun c => !(c == '@')) &&
    (rest.drop 1).dropLast.contains '.'

/-- Split a character list at every space, like `"a b".split(" ")`. -/
def splitOnSpace : List Char → List (List Char)
  | [] => [[]]
  | c :: t =>
    if c == ' ' then [] :: splitOnSpace t
    else
      match splitOnSpace t with
      | [] => [[c]]
      | seg :: rest => (c :: seg) :: rest

/-- Decimal parse of a character list: defined exactly when the list is a
non-empty run of digits. -/
def digitsToNat? (cs : List Char) : Option Nat :=
  if cs ≠ [] && cs.all Char.isDigit then
    some (cs.foldl (fun acc c => acc * 10 + (c.toNat - 48)) 0)
  else none

/-- Modelled from the spec: the cron-style recurrence parsing of the external
node-schedule library, which is not part of this repository, restricted to
the daily patterns the spec exercises (`minute hour * * *`, §8 scenario
`0 9 * * *`).  A parseable daily expression yields its minute-of-day; any
other string yields no schedule, which node-schedule reports as a null job. -/
def cronParse (s : String) : Option Nat :=
  match splitOnSpace s.toList with
  | [m, h, dom, mon, dow] =>
    match digitsToNat? m, digitsToNat? h with
    | some mv, some hv =>
      if mv ≤ 59 && hv ≤ 23 && dom == ['*'] && mon == ['*'] && dow == ['*'] then
        some (hv * 60 + mv)
      else none
    | _, _ => none
  | _ => none

/-- Modelled from the spec: `job.nextInvocation()` of the external
node-schedule library for a daily schedule — the next moment strictly after
`now` (in minutes since epoch) whose minute-of-day equals `target`. -/
def nextDaily (target now : Nat) : Nat :=
  if now % 1440 < target then now - now % 1440 + target
  else now - now % 1440 + 1440 + target

/-- Body of a POST /api/schedule request: email, frequency, and whether a
reportConfig object was supplied (only its JS truthiness matters here). -/
structure ScheduleReq where
  email : Option String
  frequency : Option String
  hasReportConfig : Bool
  deriving DecidableEq, Repr

/-- Outcome of the schedule handler: HTTP status, the nextRun timestamp of
the 200 body, whether an in-process timer was registered, and whether a
scheduled_reports row was persisted. -/
structure ScheduleResponse where
  status : Nat
  nextRun : Option Nat
  timerRegistered : Bool
  rowInserted : Bool
  deriving DecidableEq, Repr

/-- The POST /api/schedule handler (src/client/src/App.jsx lines 591-672):
missing parameters give 400; an email failing the regex gives 400 before any
registration; otherwise `schedule.scheduleJob(frequency, ...)` runs — an
unparseable expression yields a null job, so reading `job.nextInvocation()`
for the insert throws and the catch block answers 500 with no timer armed
and no row written; with a parseable expression the timer is armed, the row
is written with the computed next run, and the 200 body carries `nextRun`.
The model store accepts the insert (the dbError branch is not exercised by
the claims). -/
def scheduleHandler (req : ScheduleReq) (now : Nat) : ScheduleResponse :=
  if !truthyStr req.email || !truthyStr req.frequency || !req.hasReportConfig then
    { status := 400, nextRun := none, timerRegistered := false, rowInserted := false }
  else if !jsEmailTest (req.email.getD "") then
    { status := 400, nextRun := none, timerRegistered := false, rowInserted := false }
  else
    match cronParse (req.frequency.getD "") with
    | none =>
      { status := 500, nextRun := none, timerRegistered := false, rowInserted := false }
    | some target =>
      { status := 200, nextRun := some (nextDaily target now),
        timerRegistered := true, rowInserted := true }

/-- Every record satisfies the predicate of the all-unset filter state. -/
theorem matchesFilters_empty (r : Report) : matchesFilters emptyFilters r = true := by
  simp [matchesFilters, emptyFilters]

/-- Unfolding of the source filter predicate into the spec-side matching
relation. -/
theorem matchesFilters_iff_specKeep (f : Filters) (r : Report) :
    matchesFilters f r = true ↔ specKeep f r := by
  unfold matchesFilters specKeep
  constructor
  · intro h
    simp only [Bool.and_eq_true] at h
    obtain ⟨⟨⟨h1, h2⟩, h3⟩, h4⟩ := h
    refine ⟨?_, ?_, ?_, ?_⟩
    · intro hd
      have : (f.date == "") = false := by
        simpa using hd
      rw [this] at h1
      simpa using h1
    · intro hd
      have : (f.category == "") = false := by
        simpa using hd
      rw [this] at h2
      simpa using h2
    · intro hd
      have : (f.user == "") = false := by
        simpa using hd
      rw [this] at h3
      simpa using h3
    · intro hd
      have : (f.region == "") = false := by
        simpa using hd
      rw [this] at h4
      simpa using h4
  · rintro ⟨h1, h2, h3, h4⟩
    simp only [Bool.and_eq_true]
    refine ⟨⟨⟨?_, ?_⟩, ?_⟩, ?_⟩
    · by_cases hd : f.date = ""
      · simp [hd]
      · simp [hd, h1 hd]
    · by_cases hd : f.category = ""
      · simp [hd]
      · simp [hd, h2 hd]
    · by_cases hd : f.user = ""
      · simp [hd]
      · simp [hd, h3 hd]
    · by_cases hd : f.region = ""
      · simp [hd]
      · simp [hd, h4 hd]

/-- C1: for every collection of report records and every filter criteria
value, the filter returns a sub-collection of the input preserving the
original relative order (a `List.Sublist`), and with all four criteria unset
it returns the input unchanged. -/
theorem filter_sublist_and_allEmpty_id (f : Filters) (reports : List Report) :
    (filteredReports f reports).Sublist reports ∧
      filteredReports emptyFilters reports = reports := by
  constructor
  · exact List.filter_sublist reports
  · exact List.filter_eq_self.mpr fun r _ => matchesFilters_empty r

/-- C2: a record is kept by the filter iff it is in the input and every
populated criterion matches it — date and category by exact string equality,
user and region by case-insensitive substring containment, unset criteria
imposing no constraint; concretely, a region filter "nor" keeps the seeded
North record and a region filter "south" drops it. -/
theorem filter_keeps_iff_criteria_match :
    (∀ (f : Filters) (r : Report) (reports : List Report),
        r ∈ filteredReports f reports ↔ r ∈ reports ∧ specKeep f r) ∧
      filteredReports { date := "", category := "", user := "", region := "nor" }
          [aliceReport] = [aliceReport] ∧
      filteredReports { date := "", category := "", user := "", region := "south" }
          [aliceReport] = [] := by
  refine ⟨?_, by decide, by decide⟩
  intro f r reports
  rw [filteredReports, List.mem_filter, matchesFilters_iff_specKeep]

/-- A request body with every field present but the amount equal to 0
dollars (0 cents): all five JSON fields are supplied. -/
def zeroAmountBody : ReportBody :=
  { date := some "2025-06-01", category := some "Sales", amount := some 0,
    user := some "Alice", region := some "North" }

/-- A request body missing the date field. -/
def missingDateBody : ReportBody :=
  { date := none, category := some "Sales", amount := some 100000,
    user := some "Alice", region := some "North" }

/-- The seed-scenario request body, every field present and truthy. -/
def fullBody : ReportBody :=
  { date := some "2025-06-01", category := some "Sales", amount := some 100000,
    user := some "Alice", region := some "North" }

/-- C4 counterexample: a POST /api/reports request with all five required
fields present (amount 0) is answered 400 with no record inserted, although
the claim promises 200/201 with the created record whenever all fields are
present and the store accepts. -/
theorem post_reports_all_present_yet_400 :
    zeroAmountBody.date.isSome ∧ zeroAmountBody.category.isSome ∧
      zeroAmountBody.amount.isSome ∧ zeroAmountBody.user.isSome ∧
      zeroAmountBody.region.isSome ∧
      (postReportsHandler zeroAmountBody [] 1).1.status = 400 ∧
      (postReportsHandler zeroAmountBody [] 1).1.status ≠ 200 ∧
      (postReportsHandler zeroAmountBody [] 1).1.status ≠ 201 ∧
      (postReportsHandler zeroAmountBody [] 1).1.body = none ∧
      (postReportsHandler zeroAmountBody [] 1).2 = [] := by decide

/-- C4 amended: a request with any required field missing is answered 400
with nothing inserted; a request with all five fields present and truthy
(non-empty strings, non-zero amount) is inserted and answered 200 with the
created record carrying the store-assigned identifier. -/
theorem post_reports_validation (b : ReportBody) (store : List Report) (nextId : Nat) :
    ((b.date = none ∨ b.category = none ∨ b.amount = none ∨
        b.user = none ∨ b.region = none) →
      (postReportsHandler b store nextId).1.status = 400 ∧
        (postReportsHandler b store nextId).1.body = none ∧
        (postReportsHandler b store nextId).2 = store) ∧
    ((truthyStr b.date && truthyStr b.category && truthyNum b.amount &&
        truthyStr b.user && truthyStr b.region) = true →
      ∃ r : Report, (postReportsHandler b store nextId).1.status = 200 ∧
        (postReportsHandler b store nextId).1.body = some r ∧ r.id = nextId ∧
        (postReportsHandler b store nextId).2 = store ++ [r]) := by
  constructor
  · intro hmiss
    have hguard : (truthyStr b.date && truthyStr b.category && truthyNum b.amount &&
        truthyStr b.user && truthyStr b.region) = false := by
      rcases hmiss with h | h | h | h | h <;> simp [h, truthyStr, truthyNum]
    simp [postReportsHandler, hguard]
  · intro hguard
    refine ⟨{ id := nextId, date := b.date.getD "", category := b.category.getD "",
              amountCents := b.amount.getD 0, user := b.user.getD "",
              region := b.region.getD "" }, ?_, ?_, rfl, ?_⟩ <;>
      simp [postReportsHandler, hguard]

/-- C4 witness: the missing-date body is rejected with 400 and the full
Alice body is inserted with identifier 1. -/
theorem post_reports_validation_witness :
    ((postReportsHandler missingDateBody [] 1).1.status = 400 ∧
      (postReportsHandler missingDateBody [] 1).1.body = none ∧
      (postReportsHandler missingDateBody [] 1).2 = []) ∧
    (∃ r : Report, (postReportsHandler fullBody [] 1).1.status = 200 ∧
      (postReportsHandler fullBody [] 1).1.body = some r ∧ r.id = 1 ∧
      (postReportsHandler fullBody [] 1).2 = [] ++ [r]) :=
  ⟨(post_reports_validation missingDateBody [] 1).1 (Or.inl rfl),
   (post_reports_validation fullBody [] 1).2 (by decide)⟩

/-- C10: in the validating revisions, a POST /api/reports body with all five
fields present but amount 0 is rejected with 400 and the message "All fields
are required", nothing is inserted, and the cause is JS falsiness of the
amount value 0 in the presence check. -/
theorem post_reports_zero_amount_falsiness :
    (postReportsHandler zeroAmountBody [] 1).1 =
        { status := 400, body := none, error := some "All fields are required" } ∧
      (postReportsHandler zeroAmountBody [] 1).2 = [] ∧
      truthyNum (some 0) = false := by decide

/-- C3: the filter is idempotent — filtering an already-filtered result with
the same criteria yields exactly the same result. -/
theorem filter_idempotent (f : Filters) (reports : List Report) :
    filteredReports f (filteredReports f reports) = filteredReports f reports := by
  unfold filteredReports
  rw [List.filter_filter]
  simp

/-- C5: exporting an empty record collection is refused — the Excel handler
answers 400 with no artifact for an absent/non-array body and for an empty
array, and the client-side PDF export saves no file for an empty filtered
set. -/
theorem export_refuses_empty_input :
    excelHandler none = (400, none) ∧ excelHandler (some []) = (400, none) ∧
      exportPDF [] = none := ⟨rfl, rfl, rfl⟩

/-- First seeded row as a JSON object in table column order. -/
def excelRow1 : RowObj :=
  [("id", Cell.num 1), ("date", Cell.str "2025-06-01"), ("category", Cell.str "Sales"),
   ("amount", Cell.num 1000), ("user", Cell.str "Alice"), ("region", Cell.str "North")]

/-- Second seeded row as a JSON object. -/
def excelRow2 : RowObj :=
  [("id", Cell.num 2), ("date", Cell.str "2025-06-02"), ("category", Cell.str "HR"),
   ("amount", Cell.num 500), ("user", Cell.str "Bob"), ("region", Cell.str "South")]

/-- Third seeded row as a JSON object. -/
def excelRow3 : RowObj :=
  [("id", Cell.num 3), ("date", Cell.str "2025-06-03"), ("category", Cell.str "Finance"),
   ("amount", Cell.num 750), ("user", Cell.str "Charlie"), ("region", Cell.str "East")]

/-- C6 counterexample: for the known 3-record input the artifact does have
1 header row plus 3 data rows, but the amount cells hold the raw numbers
(1000, 500, 750) and no cell of the artifact is a two-decimal string such
as "1000.00" — the handler applies no number formatting. -/
theorem excel_amounts_not_two_decimal :
    (excelHandler (some [excelRow1, excelRow2, excelRow3])).1 = 200 ∧
      (excelSheet [excelRow1, excelRow2, excelRow3]).length = 4 ∧
      ((excelSheet [excelRow1, excelRow2, excelRow3]).getD 1 []).getD 3 Cell.empty =
        Cell.num 1000 ∧
      Cell.str "1000.00" ∉ (excelSheet [excelRow1, excelRow2, excelRow3]).flatten ∧
      Cell.str "500.00" ∉ (excelSheet [excelRow1, excelRow2, excelRow3]).flatten ∧
      Cell.str "750.00" ∉ (excelSheet [excelRow1, excelRow2, excelRow3]).flatten := by
  decide

/-- C6 amended: for a non-empty input the spreadsheet artifact is exactly one
header row — the first record field names uppercased, in the key order of
that record — followed by one data row per input record in order, each row
holding the record values under the header keys; amount values are carried
through as raw numbers, not reformatted to two decimals. -/
theorem excel_sheet_shape (r0 : RowObj) (rest : List RowObj) :
    (excelSheet (r0 :: rest)).length = (r0 :: rest).length + 1 ∧
      (excelSheet (r0 :: rest)).head? =
        some ((rowKeys r0).map (fun h => Cell.str (jsToUpper h))) ∧
      (excelSheet (r0 :: rest)).drop 1 =
        (r0 :: rest).map (fun r => (rowKeys r0).map (fun k => rowGet r k)) ∧
      excelHandler (some (r0 :: rest)) = (200, some (excelSheet (r0 :: rest))) := by
  refine ⟨?_, rfl, rfl, rfl⟩
  simp [excelSheet]

/-- The texts drawn by the PDF loop are exactly the formatted lines of the
records, in input order, whatever the starting index and page. -/
theorem pdfPlace_texts (rs : List Report) : ∀ idx page : Nat,
    (pdfPlace idx page rs).map PdfItem.text = rs.map pdfLine := by
  induction rs with
  | nil => intro idx page; rfl
  | cons r rest ih =>
    intro idx page
    by_cases h : 20 + idx * 10 > 280 <;> simp [pdfPlace, h, ih]

/-- Number of loop indices in `[idx, idx+k]` whose computed y-position
exceeds the 280 threshold, i.e. indices that are at least 27. -/
def overflowCount (idx k : Nat) : Nat := idx + k + 1 - max 27 idx

/-- Page and y-coordinate of every line drawn by the PDF loop: the k-th line
lands on the starting page advanced by one per overflowing index so far, at
y 20 when its own index overflows and at 20 + index·10 otherwise. -/
theorem pdfPlace_page_y (rs : List Report) : ∀ idx page : Nat,
    (pdfPlace idx page rs).map (fun it => (it.page, it.y)) =
      (List.range rs.length).map
        (fun k => (page + overflowCount idx k,
          if 20 + (idx + k) * 10 > 280 then 20 else 20 + (idx + k) * 10)) := by
  induction rs with
  | nil => intro idx page; rfl
  | cons r rest ih =>
    intro idx page
    rw [List.length_cons, List.range_succ_eq_map, List.map_cons, List.map_map]
    by_cases h : 20 + idx * 10 > 280
    · rw [pdfPlace, if_pos h, List.map_cons, ih (idx + 1) (page + 1)]
      refine congrArg₂ _ ?_ (List.map_congr_left fun k _ => ?_)
      · have h1 : overflowCount idx 0 = 1 := by
          unfold overflowCount; omega
        simp [h1, h]
      · have h1 : page + 1 + overflowCount (idx + 1) k =
            page + overflowCount idx (k + 1) := by
          unfold overflowCount; omega
        have h2 : idx + 1 + k = idx + (k + 1) := by omega
        simp [Function.comp, h1, h2]
    · rw [pdfPlace, if_neg h, List.map_cons, ih (idx + 1) page]
      refine congrArg₂ _ ?_ (List.map_congr_left fun k _ => ?_)
      · have h1 : overflowCount idx 0 = 0 := by
          unfold overflowCount; omega
        simp [h1, h]
      · have h1 : page + overflowCount (idx + 1) k =
            page + overflowCount idx (k + 1) := by
          unfold overflowCount; omega
        have h2 : idx + 1 + k = idx + (k + 1) := by omega
        simp [Function.comp, h1, h2]

/-- A bulk-data record with identifier `n`. -/
def mkReport (n : Nat) : Report :=
  { id := n, date := "2025-06-01", category := "Sales", amountCents := 100,
    user := "u", region := "r" }

/-- Twenty-nine records: enough for the y-position of the PDF loop to exceed the
280 threshold at the two last lines (indices 27 and 28). -/
def recs29 : List Report := (List.range 29).map mkReport

/-- C7 counterexample: in the 29-record export, the two lines past the
threshold do not share "the new page" — line index 27 lands on page 1 and
line index 28 on page 2, because the y counter is never reset and every
later line triggers its own page break. -/
theorem pdf_overflow_lines_on_distinct_pages :
    (pdfItems recs29).map PdfItem.page = List.replicate 28 0 ++ [1, 2] ∧
      ((pdfItems recs29).getD 28 { page := 0, x := 0, y := 0, text := "" }).page = 1 ∧
      ((pdfItems recs29).getD 29 { page := 0, x := 0, y := 0, text := "" }).page = 2 ∧
      ((pdfItems recs29).getD 28 { page := 0, x := 0, y := 0, text := "" }).page ≠
        ((pdfItems recs29).getD 29 { page := 0, x := 0, y := 0, text := "" }).page := by
  decide

/-- C7 amended: for a non-empty filtered collection the PDF export saves a
titled document listing the records one per line in input order, each line
`id. date | category | $amount | user | region` with the amount via
`toFixed(2)`; the first 27 lines are placed on the first page at
y = 20 + 10·index, and every later line — whose computed y-position exceeds
the fixed 280 threshold — is placed at y = 20 on its own fresh page. -/
theorem pdf_document_shape (rs : List Report) (h : rs ≠ []) :
    exportPDF rs = some (pdfItems rs) ∧
      (pdfItems rs).map PdfItem.text = "Reportify Report" :: rs.map pdfLine ∧
      (pdfItems rs).map (fun it => (it.page, it.y)) =
        (0, 10) :: (List.range rs.length).map
          (fun k => (k + 1 - 27, if 20 + k * 10 > 280 then 20 else 20 + k * 10)) ∧
      (pdfItems rs).head? =
        some { page := 0, x := 10, y := 10, text := "Reportify Report" } := by
  refine ⟨?_, ?_, ?_, rfl⟩
  · simp [exportPDF, List.length_eq_zero, h]
  · simp [pdfItems, pdfPlace_texts]
  · simp only [pdfItems, List.map_cons, pdfPlace_page_y]
    refine congrArg₂ _ rfl (List.map_congr_left fun k _ => ?_)
    have h1 : 0 + overflowCount 0 k = k + 1 - 27 := by
      unfold overflowCount; omega
    have h2 : 0 + k = k := by omega
    rw [h1, h2]

/-- C7 amended witness: the single-record export saves the titled document
with the one line on the first page at y 20. -/
theorem pdf_document_shape_witness :
    exportPDF [aliceReport] = some (pdfItems [aliceReport]) ∧
      (pdfItems [aliceReport]).map PdfItem.text =
        "Reportify Report" :: [aliceReport].map pdfLine ∧
      (pdfItems [aliceReport]).map (fun it => (it.page, it.y)) =
        (0, 10) :: (List.range 1).map
          (fun k => (k + 1 - 27, if 20 + k * 10 > 280 then 20 else 20 + k * 10)) ∧
      (pdfItems [aliceReport]).head? =
        some { page := 0, x := 10, y := 10, text := "Reportify Report" } :=
  pdf_document_shape [aliceReport] (by decide)

/-- Helper: a daily next-fire time is strictly after the request time. -/
theorem nextDaily_gt (target now : Nat) : now < nextDaily target now := by
  unfold nextDaily
  split <;> omega

/-- A schedule request with a well-formed email but an unparseable
recurrence expression. -/
def invalidCronReq : ScheduleReq :=
  { email := some "user@example.com", frequency := some "not-a-cron",
    hasReportConfig := true }

/-- A schedule request with a malformed email and the daily recurrence. -/
def invalidEmailReq : ScheduleReq :=
  { email := some "not-an-email", frequency := some "0 9 * * *",
    hasReportConfig := true }

/-- A valid daily schedule request. -/
def validScheduleReq : ScheduleReq :=
  { email := some "user@example.com", frequency := some "0 9 * * *",
    hasReportConfig := true }

/-- C8 counterexample: a request whose recurrence expression does not parse
as a cron schedule is answered 500 — not a 400-class validation error —
because the handler performs no cron validation and the null job from the
scheduling library makes the insert throw. -/
theorem schedule_invalid_cron_responds_500 :
    (scheduleHandler invalidCronReq 0).status = 500 ∧
      (scheduleHandler invalidCronReq 0).status ≠ 400 ∧
      ¬(scheduleHandler invalidCronReq 0).status < 500 ∧
      (scheduleHandler invalidCronReq 0).timerRegistered = false ∧
      (scheduleHandler invalidCronReq 0).rowInserted = false := by decide

/-- C8 amended: a request whose email fails the syntactic pattern is
answered 400 with no timer registered and no job row persisted; a request
with a well-formed email whose recurrence expression does not parse is
answered 500 — the handler has no cron validation and the library failure
surfaces through the catch block — likewise with no timer registered and no
job row persisted. -/
theorem schedule_validation (req : ScheduleReq) (now : Nat) :
    ((truthyStr req.email && truthyStr req.frequency && req.hasReportConfig) = true →
      jsEmailTest (req.email.getD "") = false →
      scheduleHandler req now =
        { status := 400, nextRun := none, timerRegistered := false,
          rowInserted := false }) ∧
    ((truthyStr req.email && truthyStr req.frequency && req.hasReportConfig) = true →
      jsEmailTest (req.email.getD "") = true →
      cronParse (req.frequency.getD "") = none →
      scheduleHandler req now =
        { status := 500, nextRun := none, timerRegistered := false,
          rowInserted := false }) := by
  simp only [Bool.and_eq_true] at *
  constructor
  · rintro ⟨⟨he, hf⟩, hc⟩ hmail
    simp [scheduleHandler, he, hf, hc, hmail]
  · rintro ⟨⟨he, hf⟩, hc⟩ hmail hcron
    simp [scheduleHandler, he, hf, hc, hmail, hcron]

/-- C8 amended witness: the malformed email is rejected 400 and the
unparseable cron expression yields 500, in both cases with nothing
registered or persisted. -/
theorem schedule_validation_witness :
    (scheduleHandler invalidEmailReq 0 =
      { status := 400, nextRun := none, timerRegistered := false,
        rowInserted := false }) ∧
    (scheduleHandler invalidCronReq 0 =
      { status := 500, nextRun := none, timerRegistered := false,
        rowInserted := false }) :=
  ⟨(schedule_validation invalidEmailReq 0).1 (by decide) (by decide),
   (schedule_validation invalidCronReq 0).2 (by decide) (by decide) (by decide)⟩

/-- C9: every POST /api/schedule request the handler answers with 200
carries a nextRun timestamp strictly later than the request time. -/
theorem schedule_success_nextRun_future (req : ScheduleReq) (now : Nat)
    (h : (scheduleHandler req now).status = 200) :
    ∃ t : Nat, (scheduleHandler req now).nextRun = some t ∧ now < t := by
  rw [scheduleHandler] at h ⊢
  by_cases h1 :
      (!truthyStr req.email || !truthyStr req.frequency || !req.hasReportConfig) = true
  · rw [if_pos h1] at h
    exact absurd h (by decide)
  · rw [if_neg h1] at h ⊢
    by_cases h2 : (!jsEmailTest (req.email.getD "")) = true
    · rw [if_pos h2] at h
      exact absurd h (by decide)
    · rw [if_neg h2] at h ⊢
      rcases hc : cronParse (req.frequency.getD "") with _ | target
      · rw [hc] at h
        simp at h
      · exact ⟨nextDaily target now, rfl, nextDaily_gt target now⟩

/-- C9 witness: the valid daily request at time 0 is answered 200 with
nextRun strictly in the future. -/
theorem schedule_success_nextRun_future_witness :
    (scheduleHandler validScheduleReq 0).status = 200 ∧
      ∃ t : Nat, (scheduleHandler validScheduleReq 0).nextRun = some t ∧ 0 < t :=
  ⟨by decide, schedule_success_nextRun_future validScheduleReq 0 (by decide)⟩

end Reportify
